import Mathlib

/-!
Verification of the circle-packing engine in `src/GeneralDistsCirles.py`
(class `Circles`), against its natural-language specification.

The embedding works over exact rationals (`ℚ`) in place of IEEE doubles, so
that every definition is executable and every concrete run can be checked by
`decide`.  The only non-rational quantity the source computes is a Euclidean
distance, and the source only ever *compares* such a distance with another
number; the comparison `sqrt d < s`  (for `d ≥ 0`) is equivalent to
`0 < s ∧ d < s ^ 2`, which is rational.  Every distance comparison below is
embedded in that squared form, and bridge lemmas (`distLt_true_iff`,
`distLt_false_iff`) prove the embedded form equal to the real-number
comparison, so theorems can be stated with `Real.sqrt` exactly as the
specification phrases them.

Fallible Python code is embedded in `Except PyErr`; Python exceptions raised
by the source (or by numpy on its behalf) become `.error` values.
-/

unseal Rat.add Rat.sub Rat.mul Rat.inv

/-- Python exceptions that the embedded code can raise.  The constructor
`configurationError` models the `ConfigurationError` of the specification
(section 7); the source never defines nor raises it, which is itself the
content of one of the claims. -/
inductive PyErr where
  | typeError
  | valueError
  | attributeError
  | keyError
  | configurationError
deriving DecidableEq

instance {ε α : Type} [DecidableEq ε] [DecidableEq α] : DecidableEq (Except ε α)
  | .ok a, .ok b =>
    if h : a = b then .isTrue (by rw [h]) else .isFalse (fun hc => h (Except.ok.inj hc))
  | .error a, .error b =>
    if h : a = b then .isTrue (by rw [h]) else .isFalse (fun hc => h (Except.error.inj hc))
  | .ok _, .error _ => .isFalse (fun hc => Except.noConfusion hc)
  | .error _, .ok _ => .isFalse (fun hc => Except.noConfusion hc)

/-- A stored circle record `(x, y, r)`: one row of the numpy arrays the source
manipulates (`placed_mirrors` rows, mirror rows, clipped output rows). -/
abbrev Row : Type := ℚ × ℚ × ℚ

/-- The all-zero row used by `np.zeros` as an unoccupied (sentinel) slot. -/
def zeroRow : Row := (0, 0, 0)

/-- Center `(x, y)` of a row. -/
def rowCenter (c : Row) : ℚ × ℚ := (c.1, c.2.1)

/-- Radius of a row. -/
def rowRadius (c : Row) : ℚ := c.2.2

/-- Squared Euclidean distance between two points. -/
def sqDist (p q : ℚ × ℚ) : ℚ := (p.1 - q.1) ^ 2 + (p.2 - q.2) ^ 2

/-- The comparison `dist(p, q) < s` of the source (`cdist` produces the
Euclidean distance, which the source compares strictly), embedded in exact
arithmetic: for the nonnegative distance, `sqrt d < s` holds exactly when
`0 < s` and `d < s ^ 2`.  `distLt_true_iff` below proves this equal to the
real-number comparison. -/
def distLt (p q : ℚ × ℚ) (s : ℚ) : Bool := decide (0 < s ∧ sqDist p q < s ^ 2)

/-- `Circles._mirrored_circles` (source lines 38-68): the circle itself and its
eight translates by `±voxel_size` in each axis, every row carrying the same
radius, in exactly the order the source lists them. -/
def mirrored_circles (L : ℚ) (C : ℚ × ℚ) (r : ℚ) : List Row :=
  let x := C.1
  let y := C.2
  [ (x, y, r),
    (x - L, y, r),
    (x + L, y, r),
    (x, y - L, r),
    (x, y + L, r),
    (x - L, y - L, r),
    (x + L, y - L, r),
    (x - L, y + L, r),
    (x + L, y + L, r) ]

/-- `np.unique` on a 1-d array: sorted distinct values. -/
def npUnique (xs : List ℚ) : List ℚ := List.insertionSort (· ≤ ·) xs.dedup

/-- One iteration of the column loop of `Circles._overlapping_mirrors`
(source lines 91-93): `np.any(d[:, col] < (r + r_m))` for the column of the
`cdist` matrix belonging to one stored row `p`.  `d[:, col]` is the list of
distances from each candidate center in `x` to the center of `p`, and numpy
broadcasts it against the array `r + r_m`: legal when either side has length
one or both lengths agree, otherwise a `ValueError` is raised. -/
def colOverlaps (x : List (ℚ × ℚ)) (r_m : List ℚ) (p : Row) : Except PyErr Bool :=
  if r_m.length = 1 then
    .ok (x.any fun c => distLt c (rowCenter p) (rowRadius p + r_m.headD 0))
  else if r_m.length = x.length then
    .ok ((x.zip r_m).any fun cr => distLt cr.1 (rowCenter p) (rowRadius p + cr.2))
  else if x.length = 1 then
    .ok (r_m.any fun rm => distLt (x.headD (0, 0)) (rowCenter p) (rowRadius p + rm))
  else
    .error PyErr.valueError

/-- The column loop of `Circles._overlapping_mirrors` (source lines 90-93):
`overlap` counts the stored rows whose column reports an overlap. -/
def countOverlapCols (x : List (ℚ × ℚ)) (r_m : List ℚ) :
    List Row → ℕ → Except PyErr ℕ
  | [], overlap => .ok overlap
  | p :: ps, overlap =>
    match colOverlaps x r_m p with
    | .error e => .error e
    | .ok b => countOverlapCols x r_m ps (if b then overlap + 1 else overlap)

/-- `Circles._overlapping_mirrors` (source lines 70-96): candidate mirror rows
against the whole store.  `x` is the list of candidate centers, `r_m` the
sorted distinct candidate radii (`np.unique(mirrors[:, 2])`), and the result
is `False` exactly when no column of the distance matrix reports an
overlap. -/
def overlapping_mirrors (mirrors placed_mirrors : List Row) : Except PyErr Bool :=
  (countOverlapCols (mirrors.map rowCenter) (npUnique (mirrors.map rowRadius))
      placed_mirrors 0).bind
    (fun overlap => if overlap = 0 then .ok false else .ok true)

/-! Bridge lemmas between the exact comparison `distLt` and the real-number
Euclidean distance used by the specification. -/

theorem distLt_true_iff (p q : ℚ × ℚ) (s : ℚ) :
    distLt p q s = true ↔
      Real.sqrt (((p.1 - q.1 : ℚ) : ℝ) ^ 2 + ((p.2 - q.2 : ℚ) : ℝ) ^ 2) < (s : ℝ) := by
  unfold distLt sqDist
  rw [decide_eq_true_iff]
  constructor
  · rintro ⟨hs, hlt⟩
    have hs2 : (0 : ℝ) < (s : ℝ) := by exact_mod_cast hs
    rw [Real.sqrt_lt' hs2]
    push_cast
    exact_mod_cast hlt
  · intro h
    have hs2 : (0 : ℝ) < (s : ℝ) := lt_of_le_of_lt (Real.sqrt_nonneg _) h
    refine ⟨by exact_mod_cast hs2, ?_⟩
    have h2 := (Real.sqrt_lt' hs2).mp h
    push_cast at h2
    exact_mod_cast h2

theorem distLt_false_iff (p q : ℚ × ℚ) (s : ℚ) :
    distLt p q s = false ↔
      (s : ℝ) ≤ Real.sqrt (((p.1 - q.1 : ℚ) : ℝ) ^ 2 + ((p.2 - q.2 : ℚ) : ℝ) ^ 2) := by
  rw [← not_lt, ← distLt_true_iff]
  cases h : distLt p q s <;> simp

theorem distLt_symm (p q : ℚ × ℚ) (s : ℚ) : distLt p q s = distLt q p s := by
  unfold distLt sqDist
  ring_nf

/-! Characterization of the overlap detector. -/

theorem mem_mirrored_radius (L : ℚ) (C : ℚ × ℚ) (r : ℚ) :
    ∀ c ∈ mirrored_circles L C r, rowRadius c = r := by
  intro c hc
  simp only [mirrored_circles, List.mem_cons, List.mem_singleton,
    List.not_mem_nil, or_false] at hc
  rcases hc with h | h | h | h | h | h | h | h | h <;> subst h <;> rfl

theorem countOverlapCols_ok (x : List (ℚ × ℚ)) (r_m : List ℚ) (g : Row → Bool)
    (hcol : ∀ p, colOverlaps x r_m p = .ok (g p)) :
    ∀ (l : List Row) (acc : ℕ),
      countOverlapCols x r_m l acc = .ok (acc + l.countP g) := by
  intro l
  induction l with
  | nil => intro acc; simp [countOverlapCols]
  | cons p ps ih =>
    intro acc
    simp only [countOverlapCols, hcol p]
    rw [ih]
    by_cases hb : g p <;> simp [hb, List.countP_cons] <;> omega

theorem any_map_eq {α β : Type} (l : List α) (f : α → β) (p : β → Bool) :
    (l.map f).any p = l.any (fun c => p (f c)) := by
  induction l with
  | nil => rfl
  | cons a as ih => simp [ih]

theorem colOverlaps_singleton (x : List (ℚ × ℚ)) (rc : ℚ) (p : Row) :
    colOverlaps x [rc] p = .ok (x.any fun c => distLt c (rowCenter p) (rowRadius p + rc)) :=
  rfl

theorem dedup_replicate_pos (n : ℕ) (a : ℚ) (h : 0 < n) :
    (List.replicate n a).dedup = [a] := by
  cases n with
  | zero => omega
  | succ m =>
    induction m with
    | zero => simp
    | succ k ih =>
      rw [List.replicate_succ, List.dedup_cons_of_mem (by simp)]
      simpa using ih (by omega)

theorem npUnique_all_eq (xs : List ℚ) (a : ℚ) (hne : xs ≠ [])
    (h : ∀ b ∈ xs, b = a) : npUnique xs = [a] := by
  have hrep : xs = List.replicate xs.length a :=
    List.eq_replicate.mpr ⟨rfl, h⟩
  have hlen : 0 < xs.length := List.length_pos.mpr hne
  rw [npUnique, hrep, dedup_replicate_pos _ _ (by simpa using hlen)]
  rfl

theorem if_countP_eq_any (l : List Row) (g : Row → Bool) :
    (if l.countP g = 0 then (.ok false : Except PyErr Bool) else .ok true) =
      .ok (l.any g) := by
  by_cases h : l.countP g = 0
  · rw [if_pos h]
    rw [List.countP_eq_zero] at h
    have : l.any g = false := by
      rw [List.any_eq_false]; exact h
    rw [this]
  · rw [if_neg h]
    have hpos : 0 < l.countP g := Nat.pos_of_ne_zero h
    rw [List.countP_pos] at hpos
    have : l.any g = true := List.any_eq_true.mpr hpos
    rw [this]

/-- If every candidate row carries the same radius `rc` (true of every mirror
set the engine builds), the detector never raises and reports an overlap
exactly when some candidate center is strictly within `rowRadius p + rc` of
some stored row `p`. -/
theorem overlapping_const_radius (mirrors placed : List Row) (rc : ℚ)
    (hm : ∀ c ∈ mirrors, rowRadius c = rc) :
    overlapping_mirrors mirrors placed =
      .ok (placed.any fun p =>
        mirrors.any fun c => distLt (rowCenter c) (rowCenter p) (rowRadius p + rc)) := by
  unfold overlapping_mirrors
  by_cases hmir : mirrors = []
  · subst hmir
    have hcol : ∀ p : Row,
        colOverlaps (([] : List Row).map rowCenter) (npUnique (([] : List Row).map rowRadius)) p
          = .ok ((fun _ : Row => false) p) := fun _ => rfl
    rw [countOverlapCols_ok _ _ _ hcol placed 0]
    show (if 0 + placed.countP _ = 0 then (Except.ok false : Except PyErr Bool) else .ok true) = _
    rw [Nat.zero_add, if_countP_eq_any]
    simp
  · have hne : mirrors.map rowRadius ≠ [] := fun h => hmir (by simpa using h)
    have hall : ∀ b ∈ mirrors.map rowRadius, b = rc := by
      intro b hb
      rcases List.mem_map.mp hb with ⟨c, hc, rfl⟩
      exact hm c hc
    have hu : npUnique (mirrors.map rowRadius) = [rc] := npUnique_all_eq _ _ hne hall
    rw [hu]
    have hcol : ∀ p : Row,
        colOverlaps (mirrors.map rowCenter) [rc] p
          = .ok ((fun p : Row =>
              mirrors.any fun c => distLt (rowCenter c) (rowCenter p) (rowRadius p + rc)) p) := by
      intro p
      rw [colOverlaps_singleton]
      congr 1
      rw [any_map_eq]
    rw [countOverlapCols_ok _ _ _ hcol placed 0]
    show (if 0 + placed.countP _ = 0 then (Except.ok false : Except PyErr Bool) else .ok true) = _
    rw [Nat.zero_add, if_countP_eq_any]

theorem ok_eq_ok_iff {b c : Bool} :
    ((Except.ok b : Except PyErr Bool) = .ok c) ↔ b = c := by
  constructor
  · exact fun h => Except.ok.inj h
  · intro h; rw [h]

theorem row_ext (a b c d e f : ℚ) (h1 : a = d) (h2 : b = e) (h3 : c = f) :
    ((a, b, c) : Row) = (d, e, f) := by
  subst h1; subst h2; subst h3; rfl

/-- Claim C8: `overlaps(candidateMirrors, placed)` returns true exactly when
some stored row `p` has a candidate center strictly closer than
`rowRadius p + rc` (equivalently: the minimum distance from the images of a
placed circle to the candidate centers is strictly below the radius sum);
tangency, where the distance equals the radius sum, is not reported.  The
hypothesis records that all candidate rows share the radius `rc`, which holds
for every mirror set the engine builds.  The first conjunct shows the
detector returns a boolean (no exception) on such input. -/
theorem overlapping_mirrors_characterization (mirrors placed : List Row) (rc : ℚ)
    (hm : ∀ c ∈ mirrors, rowRadius c = rc) :
    (∃ b : Bool, overlapping_mirrors mirrors placed = .ok b) ∧
    (overlapping_mirrors mirrors placed = .ok true ↔
      ∃ p ∈ placed, ∃ c ∈ mirrors,
        Real.sqrt ((((rowCenter c).1 - (rowCenter p).1 : ℚ) : ℝ) ^ 2 +
            (((rowCenter c).2 - (rowCenter p).2 : ℚ) : ℝ) ^ 2)
          < ((rowRadius p + rc : ℚ) : ℝ)) := by
  have hch := overlapping_const_radius mirrors placed rc hm
  refine ⟨⟨_, hch⟩, ?_⟩
  rw [hch, ok_eq_ok_iff, List.any_eq_true]
  constructor
  · rintro ⟨p, hp, hinner⟩
    rw [List.any_eq_true] at hinner
    obtain ⟨c, hc, hd⟩ := hinner
    exact ⟨p, hp, c, hc, (distLt_true_iff _ _ _).mp hd⟩
  · rintro ⟨p, hp, c, hc, hd⟩
    exact ⟨p, hp, List.any_eq_true.mpr ⟨c, hc, (distLt_true_iff _ _ _).mpr hd⟩⟩

/-- Witness for `overlapping_mirrors_characterization` at a concrete input. -/
theorem overlapping_mirrors_characterization_witness :
    (∀ c ∈ ([((3 : ℚ), (0 : ℚ), (1 : ℚ))] : List Row), rowRadius c = 1) ∧
    ((∃ b : Bool,
        overlapping_mirrors [((3 : ℚ), (0 : ℚ), (1 : ℚ))]
          [((0 : ℚ), (0 : ℚ), (2 : ℚ))] = .ok b) ∧
      (overlapping_mirrors [((3 : ℚ), (0 : ℚ), (1 : ℚ))]
          [((0 : ℚ), (0 : ℚ), (2 : ℚ))] = .ok true ↔
        ∃ p ∈ ([((0 : ℚ), (0 : ℚ), (2 : ℚ))] : List Row),
          ∃ c ∈ ([((3 : ℚ), (0 : ℚ), (1 : ℚ))] : List Row),
            Real.sqrt ((((rowCenter c).1 - (rowCenter p).1 : ℚ) : ℝ) ^ 2 +
                (((rowCenter c).2 - (rowCenter p).2 : ℚ) : ℝ) ^ 2)
              < ((rowRadius p + 1 : ℚ) : ℝ))) :=
  ⟨by decide, overlapping_mirrors_characterization _ _ 1 (by decide)⟩

/-- Claim C5 is false on the code: a candidate mirror set every one of whose
images stays at least `rp + rc` away from every image of the only real placed
circle is still reported as overlapping, because a sentinel slot sits at the
origin with radius 0 and a candidate image lies within the candidate radius
of the origin.  Candidate: circle at `(1, 0)` with radius 2; real placed
circle at `(50, 50)` with radius 1; cell size 100; the store carries one
block of sentinel rows. -/
theorem sentinel_slot_causes_false_overlap :
    (∀ p ∈ mirrored_circles 100 ((50 : ℚ), 50) 1,
      ∀ c ∈ mirrored_circles 100 ((1 : ℚ), 0) 2,
        ((rowRadius p + 2 : ℚ) : ℝ) ≤
          Real.sqrt ((((rowCenter c).1 - (rowCenter p).1 : ℚ) : ℝ) ^ 2 +
            (((rowCenter c).2 - (rowCenter p).2 : ℚ) : ℝ) ^ 2)) ∧
    overlapping_mirrors (mirrored_circles 100 ((1 : ℚ), 0) 2)
      (mirrored_circles 100 ((50 : ℚ), 50) 1 ++ List.replicate 9 zeroRow) = .ok true := by
  constructor
  · have h : ∀ p ∈ mirrored_circles 100 ((50 : ℚ), 50) 1,
        ∀ c ∈ mirrored_circles 100 ((1 : ℚ), 0) 2,
          distLt (rowCenter c) (rowCenter p) (rowRadius p + 2) = false := by decide
    intro p hp c hc
    exact (distLt_false_iff _ _ _).mp (h p hp c hc)
  · decide

/-- Claim C10: the mirror generator returns exactly 9 rows: the identity copy
and the 8 translations of the center by `(±L, 0)`, `(0, ±L)`, `(±L, ±L)`,
all carrying the same radius.  Purity and absence of randomness are inherent
in the embedding: `mirrored_circles` is a plain function of its three
arguments, exactly as the source computes it. -/
theorem mirrored_circles_spec (L x y r : ℚ) :
    (mirrored_circles L (x, y) r).length = 9 ∧
    (∀ c ∈ mirrored_circles L (x, y) r, rowRadius c = r) ∧
    (∀ c : Row, c ∈ mirrored_circles L (x, y) r ↔
      ∃ dx dy : ℚ, (dx = -1 ∨ dx = 0 ∨ dx = 1) ∧ (dy = -1 ∨ dy = 0 ∨ dy = 1) ∧
        c = (x + dx * L, y + dy * L, r)) := by
  refine ⟨rfl, mem_mirrored_radius L (x, y) r, ?_⟩
  intro c
  constructor
  · intro hc
    simp only [mirrored_circles, List.mem_cons, List.not_mem_nil, or_false] at hc
    rcases hc with h | h | h | h | h | h | h | h | h <;> subst h
    · exact ⟨0, 0, Or.inr (Or.inl rfl), Or.inr (Or.inl rfl),
        row_ext _ _ _ _ _ _ (by ring) (by ring) rfl⟩
    · exact ⟨-1, 0, Or.inl rfl, Or.inr (Or.inl rfl),
        row_ext _ _ _ _ _ _ (by ring) (by ring) rfl⟩
    · exact ⟨1, 0, Or.inr (Or.inr rfl), Or.inr (Or.inl rfl),
        row_ext _ _ _ _ _ _ (by ring) (by ring) rfl⟩
    · exact ⟨0, -1, Or.inr (Or.inl rfl), Or.inl rfl,
        row_ext _ _ _ _ _ _ (by ring) (by ring) rfl⟩
    · exact ⟨0, 1, Or.inr (Or.inl rfl), Or.inr (Or.inr rfl),
        row_ext _ _ _ _ _ _ (by ring) (by ring) rfl⟩
    · exact ⟨-1, -1, Or.inl rfl, Or.inl rfl,
        row_ext _ _ _ _ _ _ (by ring) (by ring) rfl⟩
    · exact ⟨1, -1, Or.inr (Or.inr rfl), Or.inl rfl,
        row_ext _ _ _ _ _ _ (by ring) (by ring) rfl⟩
    · exact ⟨-1, 1, Or.inl rfl, Or.inr (Or.inr rfl),
        row_ext _ _ _ _ _ _ (by ring) (by ring) rfl⟩
    · exact ⟨1, 1, Or.inr (Or.inr rfl), Or.inr (Or.inr rfl),
        row_ext _ _ _ _ _ _ (by ring) (by ring) rfl⟩
  · rintro ⟨dx, dy, hdx, hdy, rfl⟩
    rcases hdx with rfl | rfl | rfl <;> rcases hdy with rfl | rfl | rfl <;>
      simp only [mirrored_circles, List.mem_cons, Prod.mk.injEq, List.not_mem_nil,
        or_false] <;>
      ring_nf <;>
      tauto

/-! The boundary clipper.  `Circles._dist_lineseg_point` (source lines
113-138) is declared inside the class with only the four parameters
`(x, y, p1, p2)` and no `self`; `Circles._periodic_circles` (line 163)
nevertheless invokes it as `self._dist_lineseg_point(x, y, p1, p2)`, a bound
method call that prepends `self` and therefore passes five positional
arguments.  Python raises
`TypeError: _dist_lineseg_point() takes 4 positional arguments but 5 were
given` before the function body runs. -/

/-- `Circles._boundaries` (source lines 98-111): the four edges of the square
cell, in the order `[bottom, left, top, right]` the source assembles them. -/
def boundaries (L : ℚ) : List ((ℚ × ℚ) × (ℚ × ℚ)) :=
  [ ((0, 0), (L, 0)),
    ((0, 0), (0, L)),
    ((0, L), (L, L)),
    ((L, 0), (L, L)) ]

/-- The body of `Circles._dist_lineseg_point` (source lines 130-138), as the
comparison `distance < r` the caller would apply to its result, in exact
arithmetic.  The source computes `d = (p2-p1)/‖p2-p1‖`, `s = (p1-C)·d`,
`t = (C-p2)·d`, `h = max(s, t, 0)`, `c = cross(C-p1, d)` and returns
`hypot(h, c)`.  For a non-degenerate segment, `hypot(h, c) < r` holds exactly
when `0 < r` and `ĥ² + ĉ² < r²·‖p2-p1‖²`, where `ĥ, ĉ` are the same
quantities scaled by `‖p2-p1‖` (so no square root is needed).  This body is
unreachable: every call raises the arity `TypeError` first. -/
def dist_lineseg_lt (x y : ℚ) (p1 p2 : ℚ × ℚ) (r : ℚ) : Bool :=
  let vx := p2.1 - p1.1
  let vy := p2.2 - p1.2
  let s := (p1.1 - x) * vx + (p1.2 - y) * vy
  let t := (x - p2.1) * vx + (y - p2.2) * vy
  let h := max (max s t) 0
  let c := (x - p1.1) * vy - (y - p1.2) * vx
  decide (0 < r ∧ h ^ 2 + c ^ 2 < r ^ 2 * (vx ^ 2 + vy ^ 2))

/-- Number of parameters in the declaration
`def _dist_lineseg_point(x, y, p1, p2)` (source line 113): four, `self` not
among them. -/
def dist_lineseg_point_numParams : ℕ := 4

/-- The call `self._dist_lineseg_point(x, y, p1, p2)` (source line 163)
followed by the comparison `d < r` (source line 164).  A bound-method call
prepends `self`, so `1 + 4` positional arguments reach a function declared
with `dist_lineseg_point_numParams = 4` parameters, and Python raises
`TypeError` without entering the body. -/
def call_bound_dist_lineseg_lt (x y : ℚ) (p1 p2 : ℚ × ℚ) (r : ℚ) : Except PyErr Bool :=
  if 1 + 4 = dist_lineseg_point_numParams then .ok (dist_lineseg_lt x y p1 p2 r)
  else .error PyErr.typeError

/-- The inner boundary loop of `Circles._periodic_circles` (source lines
159-165): for each boundary, append the row again whenever the
boundary-distance comparison holds. -/
def clipBoundaries (x y r : ℚ) (m : Row) :
    List ((ℚ × ℚ) × (ℚ × ℚ)) → List Row → Except PyErr (List Row)
  | [], acc => .ok acc
  | b :: bs, acc =>
    match call_bound_dist_lineseg_lt x y b.1 b.2 r with
    | .error e => .error e
    | .ok lt => clipBoundaries x y r m bs (if lt then acc ++ [m] else acc)

/-- One iteration of the row loop of `Circles._periodic_circles` (source lines
155-165): keep the row if its center lies in the closed cell, then run the
boundary loop. -/
def clipRow (L : ℚ) (acc : List Row) (m : Row) : Except PyErr (List Row) :=
  let x := m.1
  let y := m.2.1
  let r := m.2.2
  let acc1 := if 0 ≤ x ∧ x ≤ L ∧ 0 ≤ y ∧ y ≤ L then acc ++ [m] else acc
  clipBoundaries x y r m (boundaries L) acc1

/-- The row loop of `Circles._periodic_circles` (source lines 154-165). -/
def clipRows (L : ℚ) : List Row → List Row → Except PyErr (List Row)
  | acc, [] => .ok acc
  | acc, m :: ms =>
    match clipRow L acc m with
    | .error e => .error e
    | .ok acc2 => clipRows L acc2 ms

/-- Lexicographic order on rows, the order `np.unique(..., axis=0)` sorts
by. -/
def rowLe (a b : Row) : Prop :=
  a.1 < b.1 ∨ (a.1 = b.1 ∧ (a.2.1 < b.2.1 ∨ (a.2.1 = b.2.1 ∧ a.2.2 ≤ b.2.2)))

instance : DecidableRel rowLe := fun a b => by unfold rowLe; infer_instance

/-- `np.unique(..., axis=0)` on a list of rows: distinct rows, sorted. -/
def npUniqueRows (xs : List Row) : List Row := List.insertionSort rowLe xs.dedup

/-- `Circles._periodic_circles` (source lines 140-167). -/
def periodic_circles (L : ℚ) (mirrors : List Row) : Except PyErr (List Row) :=
  (clipRows L [] mirrors).bind (fun pcs => .ok (npUniqueRows pcs))

theorem clipRow_error (L : ℚ) (acc : List Row) (m : Row) :
    clipRow L acc m = .error PyErr.typeError := rfl

theorem clipRows_error_cons (L : ℚ) (acc : List Row) (m : Row) (ms : List Row) :
    clipRows L acc (m :: ms) = .error PyErr.typeError := rfl

theorem periodic_circles_error_cons (L : ℚ) (m : Row) (ms : List Row) :
    periodic_circles L (m :: ms) = .error PyErr.typeError := rfl

/-- Claim C4 is false on the code: on a store holding one interior circle
`(1/2, 1/2, 1/10)` in the unit cell, the clipper does not return that circle
(or any set at all) — it raises `TypeError`, because the very first
boundary-distance call passes five positional arguments to the four-parameter
`_dist_lineseg_point`. -/
theorem periodic_circles_raises_on_single_interior_circle :
    periodic_circles 1 [((1/2 : ℚ), (1/2 : ℚ), (1/10 : ℚ))] = .error PyErr.typeError := by
  decide

/-! The packing loop, `Circles.place_circles` (source lines 169-204).
Randomness is injected: `rng t` models the `t`-th evaluation of
`np.random.random(2)`, the pair of unit draws that the source scales by
`voxel_size`.  The state carries the fields the source mutates —
`placed_mirrors` (the store), `filled_positions`, and the number of draws
made so far — plus `accepted`, a derived log of the `(x, y, r)` candidates
that were accepted, which the proofs below relate to the store contents
(each accepted circle contributes its 9-row mirror block, in order). -/

structure PackState where
  store : List Row
  filled : ℕ
  t : ℕ
  accepted : List Row
deriving DecidableEq

/-- The write loop `for mirror, k in zip(mirrors, range(start, ...)):
placed_mirrors[k] = mirror` (source lines 187-188 and 197-200). -/
def writeBlock : List Row → ℕ → List Row → List Row
  | st, _, [] => st
  | st, k, m :: ms => writeBlock (st.set k m) (k + 1) ms

/-- The `while not placed and i < self.max_iterations` loop for one radius
(source lines 180-202).  In this source every iteration of the body leaves
the loop: the empty-store branch and the non-overlap branch set
`placed = True`, and the overlap branch executes `break` (line 194).  So the
loop body runs at most once, and the guard `i < max_iterations` only
distinguishes `max_iterations = 0` (no attempt at all) from `≥ 1` (exactly
one draw).  The draw is consumed before the store is inspected, exactly as
in the source. -/
def placeRadius (L : ℚ) (maxIter : ℕ) (rng : ℕ → ℚ × ℚ) (r : ℚ) (s : PackState) :
    Except PyErr PackState :=
  if maxIter = 0 then .ok s
  else
    let u := rng s.t
    let x := u.1 * L
    let y := u.2 * L
    let mirrors := mirrored_circles L (x, y) r
    if s.store.all (fun c => decide (c = zeroRow)) then
      .ok { store := writeBlock s.store 0 mirrors, filled := s.filled, t := s.t + 1,
            accepted := s.accepted ++ [(x, y, r)] }
    else
      match overlapping_mirrors mirrors s.store with
      | .error e => .error e
      | .ok true => .ok { s with t := s.t + 1 }
      | .ok false =>
        .ok { store := writeBlock s.store (s.filled * 9) mirrors, filled := s.filled + 1,
              t := s.t + 1, accepted := s.accepted ++ [(x, y, r)] }

/-- The radius loop `for r in self.sampled_radii` (source line 179). -/
def packRadii (L : ℚ) (maxIter : ℕ) (rng : ℕ → ℚ × ℚ) :
    List ℚ → PackState → Except PyErr PackState
  | [], s => .ok s
  | r :: rs, s =>
    match placeRadius L maxIter rng r s with
    | .error e => .error e
    | .ok s2 => packRadii L maxIter rng rs s2

/-- The initial state (source lines 177-178): a store of `9 × N` sentinel
rows and `filled_positions = 1`. -/
def initState (radii : List ℚ) : PackState :=
  { store := List.replicate (radii.length * 9) zeroRow, filled := 1, t := 0, accepted := [] }

/-- The placement loop of `Circles.place_circles` up to, and not including,
the final clipping call (source lines 177-202). -/
def packLoop (L : ℚ) (maxIter : ℕ) (rng : ℕ → ℚ × ℚ) (radii : List ℚ) :
    Except PyErr PackState :=
  packRadii L maxIter rng radii (initState radii)

/-- `Circles.place_circles` (source lines 169-204): run the placement loop,
then clip the full store.  `radii` is `self.sampled_radii`, `L` is
`self.voxel_size`, `maxIter` is `self.max_iterations`. -/
def place_circles (L : ℚ) (maxIter : ℕ) (rng : ℕ → ℚ × ℚ) (radii : List ℚ) :
    Except PyErr (List Row) :=
  (packLoop L maxIter rng radii).bind (fun st => periodic_circles L st.store)

theorem overlapping_mirrorset_ok (L : ℚ) (C : ℚ × ℚ) (r : ℚ) (placed : List Row) :
    overlapping_mirrors (mirrored_circles L C r) placed
      = .ok (placed.any fun p => (mirrored_circles L C r).any fun c =>
          distLt (rowCenter c) (rowCenter p) (rowRadius p + r)) :=
  overlapping_const_radius _ _ r (mem_mirrored_radius L C r)

theorem writeBlock_length (ms : List Row) :
    ∀ (st : List Row) (k : ℕ), (writeBlock st k ms).length = st.length := by
  induction ms with
  | nil => intro st k; rfl
  | cons m ms ih => intro st k; rw [writeBlock, ih, List.length_set]

theorem placeRadius_ok_exists (L : ℚ) (maxIter : ℕ) (rng : ℕ → ℚ × ℚ) (r : ℚ)
    (s : PackState) :
    ∃ s2, placeRadius L maxIter rng r s = .ok s2 ∧ s2.store.length = s.store.length := by
  unfold placeRadius
  by_cases h0 : maxIter = 0
  · exact ⟨s, by rw [if_pos h0], rfl⟩
  · rw [if_neg h0]
    simp only
    by_cases hz : s.store.all (fun c => decide (c = zeroRow))
    · rw [if_pos hz]
      exact ⟨_, rfl, writeBlock_length _ _ _⟩
    · rw [if_neg hz, overlapping_mirrorset_ok]
      by_cases hb : s.store.any fun p => (mirrored_circles L (((rng s.t).1) * L, ((rng s.t).2) * L) r).any fun c =>
          distLt (rowCenter c) (rowCenter p) (rowRadius p + r)
      · rw [hb]
        exact ⟨_, rfl, rfl⟩
      · rw [Bool.not_eq_true] at hb
        rw [hb]
        exact ⟨_, rfl, writeBlock_length _ _ _⟩

theorem packRadii_ok_exists (L : ℚ) (maxIter : ℕ) (rng : ℕ → ℚ × ℚ) :
    ∀ (rs : List ℚ) (s : PackState),
      ∃ s2, packRadii L maxIter rng rs s = .ok s2 ∧ s2.store.length = s.store.length := by
  intro rs
  induction rs with
  | nil => intro s; exact ⟨s, rfl, rfl⟩
  | cons r rs ih =>
    intro s
    obtain ⟨s1, h1, hl1⟩ := placeRadius_ok_exists L maxIter rng r s
    obtain ⟨s2, h2, hl2⟩ := ih s1
    refine ⟨s2, ?_, by rw [hl2, hl1]⟩
    rw [packRadii, h1]
    exact h2

/-- Claim C2: on any configuration with at least one sampled radius,
`place_circles` raises `TypeError` and returns no result: the store always
holds `9 × N ≥ 9` rows (sentinels included), and the clipping loop raises on
its very first row because `_dist_lineseg_point` is invoked with five
positional arguments. -/
theorem place_circles_raises_type_error (L : ℚ) (maxIter : ℕ) (rng : ℕ → ℚ × ℚ)
    (radii : List ℚ) (hne : radii ≠ []) :
    place_circles L maxIter rng radii = .error PyErr.typeError := by
  obtain ⟨st, hst, hlen⟩ := packRadii_ok_exists L maxIter rng radii (initState radii)
  unfold place_circles packLoop
  rw [hst]
  have hpos : 0 < st.store.length := by
    rw [hlen]
    simp only [initState, List.length_replicate]
    have : radii.length ≠ 0 := fun h => hne (List.length_eq_zero.mp h)
    omega
  obtain ⟨m, ms, hsplit⟩ : ∃ m ms, st.store = m :: ms := by
    cases hcs : st.store with
    | nil => rw [hcs] at hpos; simp at hpos
    | cons m ms => exact ⟨m, ms, rfl⟩
  show periodic_circles L st.store = .error PyErr.typeError
  rw [hsplit]
  exact periodic_circles_error_cons L m ms

/-- Witness for `place_circles_raises_type_error` at a concrete
configuration. -/
theorem place_circles_raises_type_error_witness :
    (([(3/10 : ℚ)] : List ℚ) ≠ []) ∧
    place_circles 1 100 (fun _ => ((1/2 : ℚ), (1/2 : ℚ))) [3/10] = .error PyErr.typeError :=
  ⟨by decide, place_circles_raises_type_error 1 100 (fun _ => ((1/2 : ℚ), (1/2 : ℚ)))
    [3/10] (by decide)⟩

/-- Claim C1 is false on the code: with `max_iterations = 100` and a second
radius whose first candidate overlaps the first placed circle, the engine
does not keep sampling — the `break` on the first overlap abandons the
radius after a single draw.  After the run, exactly two draws were consumed
(`t = 2`, one per radius) and only the first circle was accepted, although
the claim requires up to 100 attempts for the dropped radius. -/
theorem place_circles_drops_radius_after_one_attempt :
    (packLoop 1 100 (fun _ => ((1/2 : ℚ), (1/2 : ℚ))) [3/10, 3/10]).map
        (fun st => (st.t, st.accepted))
      = .ok (2, [((1/2 : ℚ), (1/2 : ℚ), (3/10 : ℚ))]) := by
  decide

/-- Claim C9 is false on the code: in a run where the second radius is
exhausted (its sole candidate overlaps), the loop records nothing about the
dropped radius — the surviving state lists a single accepted radius and no
exhaustion count — and the placement call does not return any packed result
alongside which such information could ride: it raises `TypeError`. -/
theorem exhausted_radius_not_reported :
    (packLoop 1 100 (fun _ => ((1/2 : ℚ), (1/2 : ℚ))) [3/10, 3/10]).map
        (fun st => st.accepted.map rowRadius) = .ok [3/10] ∧
    place_circles 1 100 (fun _ => ((1/2 : ℚ), (1/2 : ℚ))) [3/10, 3/10]
      = .error PyErr.typeError := by
  constructor
  · decide
  · decide

/-! The no-overlap invariant.  `storeOf` describes the store shape the loop
maintains: the mirror blocks of the accepted circles in acceptance order,
followed by untouched sentinel rows.  `SepRel` is the separation property
between two accepted circles: every image of one keeps Euclidean distance at
least the radius sum from every image of the other. -/

def storeOf (L : ℚ) (acc : List Row) (cap : ℕ) : List Row :=
  (acc.map (fun c => mirrored_circles L (rowCenter c) (rowRadius c))).flatten ++
    List.replicate (cap - 9 * acc.length) zeroRow

def SepRel (L : ℚ) (a b : Row) : Prop :=
  ∀ m1 ∈ mirrored_circles L (rowCenter a) (rowRadius a),
    ∀ m2 ∈ mirrored_circles L (rowCenter b) (rowRadius b),
      distLt (rowCenter m1) (rowCenter m2) (rowRadius m1 + rowRadius m2) = false

def PackInv (L : ℚ) (cap : ℕ) (s : PackState) : Prop :=
  s.store = storeOf L s.accepted cap ∧
  s.store.length = cap ∧
  s.filled = max 1 s.accepted.length ∧
  s.accepted.Pairwise (SepRel L)

theorem blocks_flatten_length (L : ℚ) (acc : List Row) :
    ((acc.map (fun c => mirrored_circles L (rowCenter c) (rowRadius c))).flatten).length
      = 9 * acc.length := by
  induction acc with
  | nil => rfl
  | cons a rest ih =>
    simp only [List.map_cons, List.flatten_cons, List.length_append, ih, List.length_cons]
    have : (mirrored_circles L (rowCenter a) (rowRadius a)).length = 9 := rfl
    omega

theorem set_at_append (A B : List Row) (b m : Row) :
    (A ++ b :: B).set A.length m = A ++ m :: B := by
  induction A with
  | nil => rfl
  | cons a as ih => simp [List.set, ih]

theorem writeBlock_at_append (ms : List Row) :
    ∀ (A B : List Row), ms.length ≤ B.length →
      writeBlock (A ++ B) A.length ms = A ++ ms ++ B.drop ms.length := by
  induction ms with
  | nil => intro A B _; simp [writeBlock]
  | cons m ms ih =>
    intro A B hlen
    cases B with
    | nil => simp at hlen
    | cons b B2 =>
      rw [writeBlock, set_at_append]
      have h1 : (A ++ m :: B2) = (A ++ [m]) ++ B2 := by simp
      have h2 : A.length + 1 = (A ++ [m]).length := by simp
      rw [h1, h2, ih (A ++ [m]) B2 (by simpa using hlen)]
      simp

theorem mem_storeOf_of_block (L : ℚ) (acc : List Row) (cap : ℕ) (c : Row)
    (hc : c ∈ acc) (m : Row) (hm : m ∈ mirrored_circles L (rowCenter c) (rowRadius c)) :
    m ∈ storeOf L acc cap := by
  apply List.mem_append_left
  rw [List.mem_flatten]
  exact ⟨mirrored_circles L (rowCenter c) (rowRadius c), List.mem_map_of_mem _ hc, hm⟩

theorem storeOf_nil (L : ℚ) (cap : ℕ) :
    storeOf L [] cap = List.replicate cap zeroRow := by
  simp [storeOf]

theorem storeOf_nil_all_zero (L : ℚ) (cap : ℕ) :
    (storeOf L [] cap).all (fun c => decide (c = zeroRow)) = true := by
  rw [storeOf_nil, List.all_eq_true]
  intro c hc
  rw [List.eq_of_mem_replicate hc]
  exact decide_eq_true rfl

theorem storeOf_cons_not_all_zero (L : ℚ) (a : Row) (rest : List Row) (cap : ℕ)
    (hL : L ≠ 0) :
    (storeOf L (a :: rest) cap).all (fun c => decide (c = zeroRow)) = false := by
  rw [List.all_eq_false]
  by_cases hx : a.1 - L = 0
  · refine ⟨(a.1 + L, a.2.1, a.2.2), ?_, ?_⟩
    · exact mem_storeOf_of_block L _ cap a (List.mem_cons_self a rest) _
        (by simp [mirrored_circles, rowCenter, rowRadius])
    · simp only [decide_eq_true_eq]
      intro hcon
      have h1 : a.1 + L = 0 := congrArg Prod.fst hcon
      have : L = 0 := by linarith [hx, h1]
      exact hL this
  · refine ⟨(a.1 - L, a.2.1, a.2.2), ?_, ?_⟩
    · exact mem_storeOf_of_block L _ cap a (List.mem_cons_self a rest) _
        (by simp [mirrored_circles, rowCenter, rowRadius])
    · simp only [decide_eq_true_eq]
      intro hcon
      exact hx (congrArg Prod.fst hcon)

theorem placeRadius_inv (L : ℚ) (maxIter : ℕ) (rng : ℕ → ℚ × ℚ) (r : ℚ) (cap : ℕ)
    (s : PackState) (hL : 0 < L) (hcap : 9 * (s.accepted.length + 1) ≤ cap)
    (hinv : PackInv L cap s) :
    ∃ s2, placeRadius L maxIter rng r s = .ok s2 ∧ PackInv L cap s2 ∧
      (s2.accepted = s.accepted ∨ ∃ c, s2.accepted = s.accepted ++ [c]) := by
  obtain ⟨hstore, hlen, hfill, hsep⟩ := hinv
  unfold placeRadius
  by_cases h0 : maxIter = 0
  · exact ⟨s, by rw [if_pos h0], ⟨hstore, hlen, hfill, hsep⟩, Or.inl rfl⟩
  rw [if_neg h0]
  simp only
  set x : ℚ := (rng s.t).1 * L with hxdef
  set y : ℚ := (rng s.t).2 * L with hydef
  by_cases hz : s.store.all (fun c => decide (c = zeroRow))
  · -- the unconditional first placement: the store must still be empty
    have hacc : s.accepted = [] := by
      cases hca : s.accepted with
      | nil => rfl
      | cons a rest =>
        rw [hstore, hca, storeOf_cons_not_all_zero L a rest cap (ne_of_gt hL)] at hz
        cases hz
    rw [if_pos hz]
    refine ⟨_, rfl, ?_, Or.inr ⟨(x, y, r), by simp⟩⟩
    have hcap9 : 9 ≤ cap := by omega
    have hstore2 : writeBlock s.store 0 (mirrored_circles L (x, y) r)
        = storeOf L [(x, y, r)] cap := by
      rw [hstore, hacc, storeOf_nil]
      have hrep : List.replicate cap zeroRow
          = ([] : List Row) ++ List.replicate cap zeroRow := rfl
      rw [hrep]
      have h9 : (mirrored_circles L (x, y) r).length = 9 := rfl
      rw [show (0 : ℕ) = ([] : List Row).length from rfl]
      rw [writeBlock_at_append _ _ _ (by rw [h9, List.length_replicate]; omega)]
      rw [h9, List.drop_replicate]
      simp only [storeOf, List.map_cons, List.map_nil, List.flatten_cons, List.flatten_nil,
        List.append_nil, List.nil_append, List.length_cons, List.length_nil]
      have : rowCenter (x, y, r) = (x, y) := rfl
      rw [this]
      have : rowRadius (x, y, r) = r := rfl
      rw [this]
    refine ⟨by rw [hacc]; exact hstore2, ?_, ?_, ?_⟩
    · simp only [writeBlock_length, hlen]
    · simp only [hacc, hfill]
      rfl
    · simp only [hacc]
      exact List.pairwise_singleton _ _
  rw [if_neg hz]
  -- the store is no longer empty: at least one circle has been accepted
  have hacc_ne : s.accepted ≠ [] := by
    intro hca
    rw [hstore, hca, storeOf_nil_all_zero] at hz
    exact hz rfl
  have hk1 : 1 ≤ s.accepted.length := by
    cases hca : s.accepted with
    | nil => exact absurd hca hacc_ne
    | cons a rest => simp
  have hfill2 : s.filled = s.accepted.length := by
    rw [hfill]; omega
  rw [overlapping_mirrorset_ok]
  by_cases hb : s.store.any fun p => (mirrored_circles L (x, y) r).any fun c =>
      distLt (rowCenter c) (rowCenter p) (rowRadius p + r)
  · rw [hb]
    exact ⟨_, rfl, ⟨hstore, hlen, hfill, hsep⟩, Or.inl rfl⟩
  rw [Bool.not_eq_true] at hb
  rw [hb]
  -- acceptance: the candidate overlaps nothing stored
  refine ⟨_, rfl, ?_, Or.inr ⟨(x, y, r), by simp⟩⟩
  have hblock : ((s.accepted.map
      (fun c => mirrored_circles L (rowCenter c) (rowRadius c))).flatten).length
      = 9 * s.accepted.length := blocks_flatten_length L s.accepted
  have hrep_len : (List.replicate (cap - 9 * s.accepted.length) zeroRow).length
      = cap - 9 * s.accepted.length := List.length_replicate _ _
  have hstore2 : writeBlock s.store (s.filled * 9) (mirrored_circles L (x, y) r)
      = storeOf L (s.accepted ++ [(x, y, r)]) cap := by
    rw [hstore]
    unfold storeOf
    have hpos : s.filled * 9
        = ((s.accepted.map
            (fun c => mirrored_circles L (rowCenter c) (rowRadius c))).flatten).length := by
      rw [hblock, hfill2]; omega
    rw [hpos]
    have h9 : (mirrored_circles L (x, y) r).length = 9 := rfl
    rw [writeBlock_at_append _ _ _ (by rw [h9, hrep_len]; omega)]
    rw [h9, List.drop_replicate]
    rw [List.map_append, List.flatten_append]
    simp only [List.map_cons, List.map_nil, List.flatten_cons, List.flatten_nil,
      List.append_nil]
    have hc1 : rowCenter (x, y, r) = (x, y) := rfl
    have hc2 : rowRadius (x, y, r) = r := rfl
    rw [hc1, hc2, List.append_assoc]
    have hlen2 : (s.accepted ++ [((x : ℚ), (y : ℚ), (r : ℚ))]).length
        = s.accepted.length + 1 := by simp
    rw [hlen2]
    have harith : cap - 9 * s.accepted.length - 9 = cap - 9 * (s.accepted.length + 1) := by
      omega
    rw [harith, ← List.append_assoc]
  refine ⟨hstore2, ?_, ?_, ?_⟩
  · simp only [writeBlock_length, hlen]
  · simp only [List.length_append, List.length_cons, List.length_nil]
    omega
  · rw [List.pairwise_append]
    refine ⟨hsep, List.pairwise_singleton _ _, ?_⟩
    intro a ha b hbmem
    rw [List.mem_singleton] at hbmem
    subst hbmem
    intro m1 hm1 m2 hm2
    -- from the negative overlap test: every stored row is clear of every
    -- candidate image
    rw [List.any_eq_false] at hb
    have hm1s : m1 ∈ s.store := by
      rw [hstore]
      exact mem_storeOf_of_block L _ cap a ha m1 hm1
    have hinner := hb m1 hm1s
    rw [Bool.not_eq_true, List.any_eq_false] at hinner
    have hc2 : rowCenter ((x, y, r) : Row) = (x, y) := rfl
    have hr2 : rowRadius ((x, y, r) : Row) = r := rfl
    rw [hc2, hr2] at hm2
    have hd := hinner m2 hm2
    rw [Bool.not_eq_true] at hd
    have hrm2 : rowRadius m2 = r := mem_mirrored_radius L (x, y) r m2 hm2
    rw [distLt_symm, ← hrm2] at hd
    exact hd

theorem packRadii_inv (L : ℚ) (maxIter : ℕ) (rng : ℕ → ℚ × ℚ) (cap : ℕ) (hL : 0 < L) :
    ∀ (rs : List ℚ) (s : PackState), PackInv L cap s →
      9 * (s.accepted.length + rs.length) ≤ cap →
      ∃ s2, packRadii L maxIter rng rs s = .ok s2 ∧ PackInv L cap s2 := by
  intro rs
  induction rs with
  | nil => intro s hinv _; exact ⟨s, rfl, hinv⟩
  | cons r rs ih =>
    intro s hinv hbound
    have hcap1 : 9 * (s.accepted.length + 1) ≤ cap := by
      simp only [List.length_cons] at hbound
      omega
    obtain ⟨s1, h1, hinv1, hacc1⟩ := placeRadius_inv L maxIter rng r cap s hL hcap1 hinv
    have hlen1 : s1.accepted.length ≤ s.accepted.length + 1 := by
      rcases hacc1 with h | ⟨c, h⟩ <;> rw [h] <;> simp
    have hbound1 : 9 * (s1.accepted.length + rs.length) ≤ cap := by
      simp only [List.length_cons] at hbound
      omega
    obtain ⟨s2, h2, hinv2⟩ := ih s1 hinv1 hbound1
    refine ⟨s2, ?_, hinv2⟩
    rw [packRadii, h1]
    exact h2

/-- Claim C3: after the placement loop finishes, any two circles accepted at
distinct positions keep every pair of their periodic images at Euclidean
distance at least the sum of the two radii.  The run is arbitrary: any retry
budget, any random stream, any sampled radii (the specification fixes
`voxel_size > 0`, recorded as the hypothesis `0 < L`).  Over the exact
rationals of the embedding the inequality is exact, so it holds a fortiori
within any floating tolerance. -/
theorem no_overlap_invariant (L : ℚ) (maxIter : ℕ) (rng : ℕ → ℚ × ℚ) (radii : List ℚ)
    (hL : 0 < L) (st : PackState) (hrun : packLoop L maxIter rng radii = .ok st)
    (i j : ℕ) (ci cj : Row) (hi : st.accepted[i]? = some ci)
    (hj : st.accepted[j]? = some cj) (hij : i ≠ j)
    (m1 : Row) (hm1 : m1 ∈ mirrored_circles L (rowCenter ci) (rowRadius ci))
    (m2 : Row) (hm2 : m2 ∈ mirrored_circles L (rowCenter cj) (rowRadius cj)) :
    ((rowRadius m1 + rowRadius m2 : ℚ) : ℝ) ≤
      Real.sqrt ((((rowCenter m1).1 - (rowCenter m2).1 : ℚ) : ℝ) ^ 2 +
        (((rowCenter m1).2 - (rowCenter m2).2 : ℚ) : ℝ) ^ 2) := by
  have hinv0 : PackInv L (radii.length * 9) (initState radii) := by
    refine ⟨?_, ?_, ?_, ?_⟩
    · show List.replicate (radii.length * 9) zeroRow = storeOf L [] (radii.length * 9)
      rw [storeOf_nil]
    · simp [initState]
    · rfl
    · exact List.Pairwise.nil
  have hbound0 : 9 * ((initState radii).accepted.length + radii.length)
      ≤ radii.length * 9 := by
    simp only [initState, List.length_nil]
    omega
  obtain ⟨st2, hok, hinv⟩ :=
    packRadii_inv L maxIter rng (radii.length * 9) hL radii (initState radii) hinv0 hbound0
  rw [packLoop, hok] at hrun
  have hst : st2 = st := Except.ok.inj hrun
  subst hst
  obtain ⟨-, -, -, hsep⟩ := hinv
  obtain ⟨hilt, hieq⟩ := List.getElem?_eq_some.mp hi
  obtain ⟨hjlt, hjeq⟩ := List.getElem?_eq_some.mp hj
  rw [List.pairwise_iff_getElem] at hsep
  rcases Nat.lt_or_ge i j with hlt | hge
  · have hrel := hsep i j hilt hjlt hlt
    rw [hieq, hjeq] at hrel
    have hd := hrel m1 hm1 m2 hm2
    exact (distLt_false_iff _ _ _).mp hd
  · have hjlti : j < i := by omega
    have hrel := hsep j i hjlt hilt hjlti
    rw [hieq, hjeq] at hrel
    have hd := hrel m2 hm2 m1 hm1
    rw [distLt_symm, add_comm] at hd
    exact (distLt_false_iff _ _ _).mp hd

/-- Concrete deterministic stream used by the invariant witness: first draw
`(1/2, 1/2)`, every later draw `(0, 1/2)`. -/
def rngW : ℕ → ℚ × ℚ := fun t => if t = 0 then (1/2, 1/2) else (0, 1/2)

/-- The state the witness run ends in: two accepted circles of radius `1/4`
at `(1/2, 1/2)` and `(0, 1/2)` in the unit cell, their mirror blocks filling
the whole store. -/
def packStateW : PackState :=
  { store := mirrored_circles 1 (1/2, 1/2) (1/4) ++ mirrored_circles 1 (0, 1/2) (1/4),
    filled := 2, t := 2,
    accepted := [(1/2, 1/2, 1/4), (0, 1/2, 1/4)] }

/-- Witness for `no_overlap_invariant` on a concrete two-circle run. -/
theorem no_overlap_invariant_witness :
    (0 : ℚ) < 1 ∧
    packLoop 1 100 rngW [1/4, 1/4] = .ok packStateW ∧
    packStateW.accepted[0]? = some (1/2, 1/2, 1/4) ∧
    packStateW.accepted[1]? = some (0, 1/2, 1/4) ∧
    (0 : ℕ) ≠ 1 ∧
    ((1/2 : ℚ), (1/2 : ℚ), (1/4 : ℚ))
      ∈ mirrored_circles 1 (rowCenter (1/2, 1/2, 1/4)) (rowRadius (1/2, 1/2, 1/4)) ∧
    ((0 : ℚ), (1/2 : ℚ), (1/4 : ℚ))
      ∈ mirrored_circles 1 (rowCenter (0, 1/2, 1/4)) (rowRadius (0, 1/2, 1/4)) ∧
    ((rowRadius ((1/2 : ℚ), (1/2 : ℚ), (1/4 : ℚ))
        + rowRadius ((0 : ℚ), (1/2 : ℚ), (1/4 : ℚ)) : ℚ) : ℝ) ≤
      Real.sqrt ((((rowCenter ((1/2 : ℚ), (1/2 : ℚ), (1/4 : ℚ))).1
            - (rowCenter ((0 : ℚ), (1/2 : ℚ), (1/4 : ℚ))).1 : ℚ) : ℝ) ^ 2 +
        (((rowCenter ((1/2 : ℚ), (1/2 : ℚ), (1/4 : ℚ))).2
            - (rowCenter ((0 : ℚ), (1/2 : ℚ), (1/4 : ℚ))).2 : ℚ) : ℝ) ^ 2) :=
  ⟨by decide, by decide, by decide, by decide, by decide, by decide, by decide,
    no_overlap_invariant 1 100 rngW [1/4, 1/4] (by decide) packStateW (by decide)
      0 1 (1/2, 1/2, 1/4) (0, 1/2, 1/4) (by decide) (by decide) (by decide)
      ((1/2 : ℚ), (1/2 : ℚ), (1/4 : ℚ)) (by decide)
      ((0 : ℚ), (1/2 : ℚ), (1/4 : ℚ)) (by decide)⟩

/-! `Circles.__init__` (source lines 9-36).  The keyword-argument bag models
`**kwargs`: a missing key raises `KeyError` on subscript access.  The two
well-spelled numpy samplers are injected as functions (the specification
treats distribution sampling as an external collaborator); the `uniform`
branch does not reach any sampler, because the source misspells the
attribute (`np.random.unforml`). -/

structure Kwargs where
  low : Option ℚ := none
  high : Option ℚ := none
  size : Option ℕ := none
  loc : Option ℚ := none
  scale : Option ℚ := none
  shape : Option ℚ := none

/-- `kwargs[key]`: the value when present, `KeyError` when absent. -/
def getKw {α : Type} : Option α → Except PyErr α
  | some v => .ok v
  | none => .error PyErr.keyError

/-- The call `np.random.unforml(low, high, size)` (source line 19):
`numpy.random` defines no attribute named `unforml` (the intended name is
`uniform`), so the attribute lookup raises `AttributeError` before any
sampling happens. -/
def np_random_unforml (low high : ℚ) (size : ℕ) : Except PyErr (List ℚ) :=
  .error PyErr.attributeError

/-- `np.sort(xs)[::-1]` (source line 36): ascending sort, then reversal. -/
def np_sort_desc (xs : List ℚ) : List ℚ := (List.insertionSort (· ≤ ·) xs).reverse

/-- `Circles.__init__` (source lines 9-36), reduced to the computation of
`self.sampled_radii` (the only constructor state the packing loop consumes
besides the pass-through `voxel_size` and `max_iterations`).  The branch
structure mirrors the source: on `uniform` the misspelled attribute raises;
on `normal` and `gamma` the injected sampler provides the values, which the
final line sorts in descending order; on any other kind the source prints
"distribution not found" and leaves `sampled_radii` unassigned, so the final
sort line `np.sort(self.sampled_radii)` raises `AttributeError` — the print
is terminal output only and carries no data. -/
def Circles_init (normal_sampler gamma_sampler : ℚ → ℚ → ℕ → List ℚ)
    (distribution : String) (kw : Kwargs) : Except PyErr (List ℚ) :=
  (if distribution = "uniform" then
    (getKw kw.low).bind fun low =>
    (getKw kw.high).bind fun high =>
    (getKw kw.size).bind fun size =>
    np_random_unforml low high size
  else if distribution = "normal" then
    (getKw kw.loc).bind fun loc =>
    (getKw kw.scale).bind fun scale =>
    (getKw kw.size).bind fun size =>
    .ok (normal_sampler loc scale size)
  else if distribution = "gamma" then
    (getKw kw.shape).bind fun shape =>
    (getKw kw.scale).bind fun scale =>
    (getKw kw.size).bind fun size =>
    .ok (gamma_sampler shape scale size)
  else
    .error PyErr.attributeError).bind
    fun sampled => .ok (np_sort_desc sampled)

/-- Claim C6 is false on the code: an unknown distribution kind does make the
constructor fail before any placement attempt, but not with the
`ConfigurationError` of the specification — the source prints
"distribution not found", continues, and then crashes with `AttributeError`
when sorting the never-assigned `sampled_radii`. -/
theorem unknown_distribution_not_configuration_error :
    Circles_init (fun _ _ _ => []) (fun _ _ _ => []) "poisson" {}
        = .error PyErr.attributeError ∧
      PyErr.attributeError ≠ PyErr.configurationError := by
  constructor
  · rfl
  · decide

/-- Claim C7 is false on the code: construction with the `uniform` kind and
all its parameters present never produces any radii — the source line
`np.random.unforml(low, high, size)` misspells `uniform`, and the attribute
lookup raises `AttributeError`, whatever the parameter values. -/
theorem uniform_init_attribute_error (normal_sampler gamma_sampler : ℚ → ℚ → ℕ → List ℚ)
    (low high : ℚ) (size : ℕ) (kloc kscale kshape : Option ℚ) :
    Circles_init normal_sampler gamma_sampler "uniform"
      { low := some low, high := some high, size := some size,
        loc := kloc, scale := kscale, shape := kshape }
      = .error PyErr.attributeError := rfl
